import Mathlib

/-!
# SprintSync — verification of the spec's claims against the source

Shallow embedding of the SprintSync distributed race-timing app
(Next.js / TypeScript).  The embedded code is:

* the session protocol engine `src/src/lib/usePeerService.tsx`
  (peer registry, `assignRole`, `broadcastState`, `sendReset`,
  `broadcastReset`, `sendTrigger`, trigger-event buffer);
* the host race state machine `src/src/components/HostView.tsx`
  (`startTimer`, `stopTimer`, `handleTrigger`, `setRole`, `armSystem`,
  `cancelRace`, the arm-button guard);
* the gate role controller `src/components/GateView.tsx` together with
  the motion service `src/lib/useMotionService.ts` (armed flag,
  one-shot motion edge, trigger send).

React state is modelled as explicit state records; `conn.send(...)`
calls become elements of an output message list `(targetPeerId, msg)`;
`Date.now()` readings are parameters of type `Int` supplied at each
event.  The Supabase analytics calls inside the host callbacks touch
only the external persistence backend, which the spec places out of
scope, and are not part of the race state; they are omitted.
-/

namespace SprintSync

/-- Gate roles.  The source uses the union `GateRole | 'NONE'`
(`usePeerService.tsx`, `HostView.tsx`); the enum `GateRole` from
`@/types` has members `START`, `FINISH`, `SPLIT` (all three are
referenced in `HostView.tsx`).  The union is flattened into one
inductive type. -/
inductive GateRole where
  | NONE
  | START
  | FINISH
  | SPLIT
deriving DecidableEq, Repr

/-- Wire messages, from the `PeerData` shape in
`src/src/lib/usePeerService.tsx` (`{type, payload?: {name?, role?,
state?, timestamp?, raceId?}}`), with each message type carrying just
the payload fields the source writes for it. -/
inductive Message where
  | JOIN (name : String)
  | ROLE_ASSIGN (role : GateRole)
  | STATE_CHANGE (state : String) (raceId : Option String)
  | TRIGGER (role : GateRole) (timestamp : Int) (raceId : Option String)
  | RESET
deriving DecidableEq, Repr

/-- A send over one peer connection: the target peer's id and the
message handed to `conn.send`. -/
abbrev Send := String × Message

/-- `ConnectedPeer` from `src/src/lib/usePeerService.tsx` (the
connection handle `conn` is represented by the peer id used to address
sends). -/
structure ConnectedPeer where
  id : String
  role : GateRole
  name : String
deriving DecidableEq, Repr

/-! ## Session protocol engine — host side registry operations
(`src/src/lib/usePeerService.tsx`) -/

/-- The per-entry registry update of `assignRole` (usePeerService.tsx
lines 254-257): `p.id === peerId ? { ...p, role } : p`. -/
def assignFn (peerId : String) (role : GateRole) (p : ConnectedPeer) :
    ConnectedPeer :=
  if p.id = peerId then { p with role := role } else p

/-- `assignRole` (usePeerService.tsx lines 253-264): updates the role
of the registry entry with the given id, then looks the peer up and, if
found, sends it a ROLE_ASSIGN message.  Returns the new registry and
the sends performed. -/
def assignRole (peers : List ConnectedPeer) (peerId : String)
    (role : GateRole) : List ConnectedPeer × List Send :=
  let updated := peers.map (assignFn peerId role)
  let msgs := match updated.find? (fun p => decide (p.id = peerId)) with
    | some p => [(p.id, Message.ROLE_ASSIGN role)]
    | none   => []
  (updated, msgs)

/-- Sequentially clear the role of each listed peer id to NONE via
`assignRole`, threading the registry and concatenating sends — the
`currentPeers.forEach(... assignRole(p.id, 'NONE'))` loop of
`setRole` in `HostView.tsx`. -/
def clearList (peers : List ConnectedPeer) :
    List String → List ConnectedPeer × List Send
  | [] => (peers, [])
  | pid :: rest =>
      let fst := assignRole peers pid GateRole.NONE
      let snd := clearList fst.1 rest
      (snd.1, fst.2 ++ snd.2)

/-- `setRole` (HostView.tsx lines 93-103): the host's role-assignment
operation.  It iterates over the current registry snapshot, clearing
(via `assignRole(p.id, 'NONE')`) every other peer that currently holds
`role`, then calls `assignRole(peerId, role)` for the target. -/
def setRole (peers : List ConnectedPeer) (peerId : String)
    (role : GateRole) : List ConnectedPeer × List Send :=
  let toClear := (peers.filter fun p =>
    decide (p.role = role) && decide (p.id ≠ peerId)).map ConnectedPeer.id
  let cleared := clearList peers toClear
  let final := assignRole cleared.1 peerId role
  (final.1, cleared.2 ++ final.2)

/-- Number of registry entries currently holding role `r`. -/
def countRole (peers : List ConnectedPeer) (r : GateRole) : Nat :=
  peers.countP fun p => decide (p.role = r)

/-- The at-most-one-holder invariant for the two spec-enumerated
non-NONE roles START and FINISH. -/
def roleInvariant (peers : List ConnectedPeer) : Prop :=
  countRole peers GateRole.START ≤ 1 ∧ countRole peers GateRole.FINISH ≤ 1

instance (peers : List ConnectedPeer) : Decidable (roleInvariant peers) := by
  unfold roleInvariant; infer_instance

/-- A sequence of host-issued role assignments, applied through
`setRole` (registry part). -/
def applyOps (peers : List ConnectedPeer) :
    List (String × GateRole) → List ConnectedPeer
  | [] => peers
  | (pid, r) :: rest => applyOps (setRole peers pid r).1 rest

/-- `broadcastState` (usePeerService.tsx lines 266-273): sends a
STATE_CHANGE message to every registered peer. -/
def broadcastState (peers : List ConnectedPeer) (state : String)
    (raceId : Option String) : List Send :=
  peers.map fun p => (p.id, Message.STATE_CHANGE state raceId)

/-- `canStart` (HostView.tsx line 31):
`peerService.peers.some(p => p.role === GateRole.START)`. -/
def canStart (peers : List ConnectedPeer) : Bool :=
  peers.any fun p => decide (p.role = GateRole.START)

/-! ## Host race state machine (`src/src/components/HostView.tsx`) -/

/-- `RaceState` (HostView.tsx line 8). -/
inductive RaceState where
  | IDLE
  | ARMED
  | RUNNING
  | FINISHED
deriving DecidableEq, Repr

/-- The host component's race-relevant React state (HostView.tsx lines
19-25).  `timerOn` models `timerInterval !== null` (a live periodic
10ms elapsed-time sampler); `splitTimes` models the
`{ [key: string]: number }` object keyed by `Date.now().toString()`,
as an association list in insertion order with JS-object key-overwrite
semantics (see `recordSplit`). -/
structure HostState where
  raceState : RaceState
  startTime : Int
  elapsedTime : Int
  timerOn : Bool
  preciseTime : Option Int
  splitTimes : List (Int × Int)
deriving DecidableEq, Repr

/-- Initial host state (HostView.tsx lines 19-25: `useState` defaults
IDLE / 0 / 0 / null / null / {}). -/
def initHostState : HostState :=
  { raceState := RaceState.IDLE, startTime := 0, elapsedTime := 0,
    timerOn := false, preciseTime := none, splitTimes := [] }

/-- `startTimer` (HostView.tsx lines 53-63): status RUNNING, record
`startTime = Date.now()`, start the 10ms interval sampler. -/
def startTimer (s : HostState) (now : Int) : HostState :=
  { s with raceState := RaceState.RUNNING, startTime := now, timerOn := true }

/-- `stopTimer` (HostView.tsx lines 65-70): clear the interval sampler
if one is live. -/
def stopTimer (s : HostState) : HostState :=
  { s with timerOn := false }

/-- JS-object assignment `{ ...prev, [k]: v }` on the split-times
record: overwrite the value when the key exists, otherwise append a
new entry. -/
def recordSplit (m : List (Int × Int)) (k v : Int) : List (Int × Int) :=
  if m.any fun e => decide (e.1 = k) then
    m.map fun e => if e.1 = k then (k, v) else e
  else
    m ++ [(k, v)]

/-- `handleTrigger` (HostView.tsx lines 72-91), the race state
machine's reaction to one received TRIGGER message.  `now` is the
host's `Date.now()` at processing time; `remoteTs` is the payload
timestamp (bound as `_remoteTimestamp` and never read by the source).
Branches, in source order:
* ARMED and role START: `startTimer()`;
* RUNNING and role SPLIT: record `Date.now() - startTime` keyed by
  `Date.now().toString()`;
* RUNNING and role FINISH: `stopTimer()`, status FINISHED, broadcast
  STATE_CHANGE('LOBBY'), `elapsedTime = Date.now() - startTime`;
* anything else: no change, no sends.
The two Supabase `updateRaceStatus` calls are external persistence,
out of the modelled state. -/
def handleTrigger (peers : List ConnectedPeer) (s : HostState)
    (now : Int) (role : GateRole) (_remoteTs : Option Int) :
    HostState × List Send :=
  if s.raceState = RaceState.ARMED ∧ role = GateRole.START then
    (startTimer s now, [])
  else if s.raceState = RaceState.RUNNING ∧ role = GateRole.SPLIT then
    ({ s with splitTimes := recordSplit s.splitTimes now (now - s.startTime) }, [])
  else if s.raceState = RaceState.RUNNING ∧ role = GateRole.FINISH then
    ({ (stopTimer s) with
        raceState := RaceState.FINISHED,
        elapsedTime := now - s.startTime },
     broadcastState peers "LOBBY" none)
  else
    (s, [])

/-- `armSystem` (HostView.tsx lines 105-113): status ARMED, elapsed
reset to 0, precise time cleared, STATE_CHANGE('ARMED') broadcast with
the current race correlation id.  The callback body itself has no
precondition check. -/
def armSystem (peers : List ConnectedPeer) (raceId : Option String)
    (s : HostState) : HostState × List Send :=
  ({ s with
      raceState := RaceState.ARMED,
      elapsedTime := 0,
      preciseTime := none },
   broadcastState peers "ARMED" raceId)

/-- The Arm System control as reachable from the UI (HostView.tsx
lines 235-243): the button is rendered only while `raceState` is IDLE
or FINISHED and is `disabled={!canStart}`, so `armSystem` runs exactly
when both hold. -/
def armClick (peers : List ConnectedPeer) (raceId : Option String)
    (s : HostState) : HostState × List Send :=
  if (s.raceState = RaceState.IDLE ∨ s.raceState = RaceState.FINISHED)
      ∧ canStart peers = true then
    armSystem peers raceId s
  else
    (s, [])

/-- `cancelRace` (HostView.tsx lines 115-124): `stopTimer()`, status
IDLE, STATE_CHANGE('LOBBY') broadcast, elapsed 0, precise time
cleared. -/
def cancelRace (peers : List ConnectedPeer) (s : HostState) :
    HostState × List Send :=
  ({ (stopTimer s) with
      raceState := RaceState.IDLE,
      elapsedTime := 0,
      preciseTime := none },
   broadcastState peers "LOBBY" none)

/-- One host-side input event: an Arm System click, a received
TRIGGER, or a Cancel / Stop Race click. -/
inductive HostEvent where
  | armClick (raceId : Option String)
  | trigger (role : GateRole) (remoteTs : Option Int)
  | cancel
deriving DecidableEq, Repr

/-- Dispatch one host event.  Each event carries the registry in force
and the host clock reading `now` at the moment it is processed. -/
def hostStep (s : HostState)
    (ev : List ConnectedPeer × Int × HostEvent) : HostState × List Send :=
  match ev with
  | (peers, _, HostEvent.armClick raceId) => armClick peers raceId s
  | (peers, now, HostEvent.trigger role ts) => handleTrigger peers s now role ts
  | (peers, _, HostEvent.cancel) => cancelRace peers s

/-- Run the host state machine over a sequence of events, collecting
all sends. -/
def hostRun (s : HostState) :
    List (List ConnectedPeer × Int × HostEvent) → HostState × List Send
  | [] => (s, [])
  | ev :: rest =>
      let fst := hostStep s ev
      let snd := hostRun fst.1 rest
      (snd.1, fst.2 ++ snd.2)

/-- Run only received TRIGGER events (for the timestamp
noninterference statement): each element is the host clock at receipt,
the trigger's role, and the payload timestamp. -/
def runTriggers (peers : List ConnectedPeer) (s : HostState) :
    List (Int × GateRole × Option Int) → HostState × List Send
  | [] => (s, [])
  | (now, role, ts) :: rest =>
      let fst := handleTrigger peers s now role ts
      let snd := runTriggers peers fst.1 rest
      (snd.1, fst.2 ++ snd.2)

/-! ## Motion detector (`src/lib/useMotionService.ts`) -/

/-- `sensitivity` (useMotionService.ts line 17): number of changed
pixels needed to fire. -/
def sensitivity : Nat := 20

/-- The motion service's React state (useMotionService.ts lines
10-12). -/
structure MotionState where
  isArmed : Bool
  motionDetected : Bool
  currentDiff : Nat
deriving DecidableEq, Repr

/-- Initial motion state (useMotionService.ts lines 10-12). -/
def initMotionState : MotionState :=
  { isArmed := false, motionDetected := false, currentDiff := 0 }

/-- `armSystem` of the motion service (useMotionService.ts lines
68-73): set the armed flag; arming also clears `motionDetected`. -/
def motionArm (m : MotionState) (armed : Bool) : MotionState :=
  { m with isArmed := armed,
           motionDetected := if armed then false else m.motionDetected }

/-- One pass of the frame-differencing branch of `detectMotion`
(useMotionService.ts lines 98-121), abstracted over the pixel
arithmetic: `diffCount` is the number of ROI pixels whose RGB
difference against the previous frame exceeded the threshold (the spec
places the pixel arithmetic out of scope; the armed/disarm logic is
embedded verbatim).  Publishes `currentDiff`; when armed and
`diffCount > sensitivity`, sets `motionDetected` and clears the armed
flag at the same instant ("Disarm immediately to prevent double
trigger", line 119). -/
def detectStep (m : MotionState) (diffCount : Nat) : MotionState :=
  let m' := { m with currentDiff := diffCount }
  if m'.isArmed = true ∧ diffCount > sensitivity then
    { m' with motionDetected := true, isArmed := false }
  else
    m'

/-! ## Gate role controller (`src/components/GateView.tsx`) -/

/-- `GateStatus` (GateView.tsx line 7). -/
inductive GateStatus where
  | LOBBY
  | ARMED
  | TRIGGERED
deriving DecidableEq, Repr

/-- The gate component's state: its status, its assigned role, and its
motion detector instance (GateView.tsx lines 20-21 plus the owned
motion service). -/
structure GateState where
  status : GateStatus
  role : GateRole
  motion : MotionState
deriving DecidableEq, Repr

/-- Initial gate state (GateView.tsx: LOBBY, role NONE, detector
disarmed). -/
def initGateState : GateState :=
  { status := GateStatus.LOBBY, role := GateRole.NONE,
    motion := initMotionState }

/-- Inputs a gate reacts to: a received host message (ROLE_ASSIGN /
STATE_CHANGE / RESET, GateView.tsx lines 57-80) or one processed
camera frame with its ROI pixel diff count. -/
inductive GateEvent where
  | roleAssign (r : GateRole)
  | stateChange (st : String)
  | reset
  | frame (diffCount : Nat)
deriving DecidableEq, Repr

/-- One gate transition.  `now` is the gate's `Date.now()` at the
moment the event is handled; the returned list holds the messages the
gate hands to `peerService.sendTrigger` toward the host.

* ROLE_ASSIGN: store the role, nothing else (lines 63-64).
* STATE_CHANGE 'ARMED': status ARMED, `motionService.armSystem(true)`
  (lines 67-69); 'LOBBY': status LOBBY, `armSystem(false)` (lines
  70-72); other state strings: ignored.
* RESET: status LOBBY, `armSystem(false)` (lines 75-77).
* frame: run `detectStep`; when the detector fires (it was armed and
  the diff count exceeds `sensitivity`) while the gate status is
  ARMED, `handleMotionTrigger` runs (lines 27-37, 82-87): status
  TRIGGERED and one `sendTrigger(role, Date.now())` — a TRIGGER
  message with no raceId. -/
def gateStep (g : GateState) (now : Int) (e : GateEvent) :
    GateState × List Message :=
  match e with
  | GateEvent.roleAssign r => ({ g with role := r }, [])
  | GateEvent.stateChange st =>
      if st = "ARMED" then
        ({ g with status := GateStatus.ARMED,
                  motion := motionArm g.motion true }, [])
      else if st = "LOBBY" then
        ({ g with status := GateStatus.LOBBY,
                  motion := motionArm g.motion false }, [])
      else
        (g, [])
  | GateEvent.reset =>
      ({ g with status := GateStatus.LOBBY,
                motion := motionArm g.motion false }, [])
  | GateEvent.frame d =>
      let m' := detectStep g.motion d
      if g.motion.isArmed = true ∧ d > sensitivity
          ∧ g.status = GateStatus.ARMED then
        ({ g with status := GateStatus.TRIGGERED, motion := m' },
         [Message.TRIGGER g.role now none])
      else
        ({ g with motion := m' }, [])

/-- Run the gate over a sequence of timed events, collecting every
message it sends toward the host. -/
def gateRun (g : GateState) :
    List (Int × GateEvent) → GateState × List Message
  | [] => (g, [])
  | (now, e) :: rest =>
      let fst := gateStep g now e
      let snd := gateRun fst.1 rest
      (snd.1, fst.2 ++ snd.2)

/-! ## Reset broadcast and the host trigger buffer
(`src/src/lib/usePeerService.tsx`) -/

/-- The host-side session state touched by a reset: the peer registry
and the buffered trigger events (usePeerService.tsx lines 66-68; the
buffer entries record the role and payload timestamp of each received
TRIGGER, lines 78-80). -/
structure HostSession where
  peers : List ConnectedPeer
  triggerEvents : List (GateRole × Option Int)
deriving DecidableEq, Repr

/-- `sendReset` (usePeerService.tsx lines 275-279): send RESET to
every registered peer. -/
def sendReset (peers : List ConnectedPeer) : List Send :=
  peers.map fun p => (p.id, Message.RESET)

/-- `broadcastReset` (usePeerService.tsx lines 281-284): `sendReset()`
then clear the trigger-event buffer. -/
def broadcastReset (st : HostSession) : HostSession × List Send :=
  ({ st with triggerEvents := [] }, sendReset st.peers)

/-! ## Client-side sends toward the host
(`src/src/lib/usePeerService.tsx`) -/

/-- The client-side connection state: `hostConnectionRef`, holding the
host's peer id when a connection to the host is established and
nothing otherwise (usePeerService.tsx line 57). -/
structure ClientState where
  hostConnection : Option String
deriving DecidableEq, Repr

/-- `sendTrigger` (usePeerService.tsx lines 286-294; identically
guarded in `src/lib/usePeerService.ts` lines 147-152): if a host
connection exists, send a TRIGGER message over it; otherwise do
nothing.  Returns the (unchanged) client state and the sends made. -/
def sendTrigger (c : ClientState) (role : GateRole) (timestamp : Int)
    (raceId : Option String) : ClientState × List Message :=
  match c.hostConnection with
  | some _ => (c, [Message.TRIGGER role timestamp raceId])
  | none => (c, [])

/-- `sendToHostInternal` (usePeerService.tsx lines 83-88): the generic
send toward the host, with the same connection guard. -/
def sendToHostInternal (c : ClientState) (data : Message) :
    ClientState × List Message :=
  match c.hostConnection with
  | some _ => (c, [data])
  | none => (c, [])

/-! ## Helper functions used by the proofs -/

/-- The per-entry effect of clearing every id in `ids` to NONE. -/
def clearIdsFn (ids : List String) (p : ConnectedPeer) : ConnectedPeer :=
  if p.id ∈ ids then { p with role := GateRole.NONE } else p

/-- The ids `setRole` clears before assigning: every other peer
currently holding the role being assigned. -/
def clearIds (peers : List ConnectedPeer) (peerId : String)
    (role : GateRole) : List String :=
  (peers.filter fun p =>
    decide (p.role = role) && decide (p.id ≠ peerId)).map ConnectedPeer.id

/-!
# Theorems
-/

/-! ## Helper lemmas -/

theorem assignFn_id (pid : String) (r : GateRole) (p : ConnectedPeer) :
    (assignFn pid r p).id = p.id := by
  unfold assignFn; split <;> rfl

theorem clearIdsFn_id (ids : List String) (p : ConnectedPeer) :
    (clearIdsFn ids p).id = p.id := by
  unfold clearIdsFn; split <;> rfl

theorem assignRole_fst (ps : List ConnectedPeer) (pid : String) (r : GateRole) :
    (assignRole ps pid r).1 = ps.map (assignFn pid r) := rfl

theorem handleTrigger_ts_irrel (peers : List ConnectedPeer) (s : HostState)
    (now : Int) (role : GateRole) (ts1 ts2 : Option Int) :
    handleTrigger peers s now role ts1 = handleTrigger peers s now role ts2 := rfl

/-! ## C2 — arm precondition -/

/-- C2.  Arm precondition: invoking the Arm System operation while no
registered peer holds role START leaves the host state unchanged (no
transition to ARMED, elapsed time untouched) and broadcasts nothing;
and the operation is reachable only from status IDLE or FINISHED — in
any other status it likewise has no effect.  The precondition is
enforced where HostView renders the button (lines 235-243); the
`armSystem` callback body itself does not re-check it. -/
theorem arm_rejected_without_start_gate (peers : List ConnectedPeer)
    (raceId : Option String) (s : HostState) :
    (canStart peers = false → armClick peers raceId s = (s, [])) ∧
    (s.raceState ≠ RaceState.IDLE ∧ s.raceState ≠ RaceState.FINISHED →
      armClick peers raceId s = (s, [])) := by
  constructor
  · intro h
    simp [armClick, h]
  · rintro ⟨h1, h2⟩
    simp [armClick, h1, h2]

/-- Witness for C2: with one registered FINISH gate and no START gate,
an arm attempt from the initial (IDLE) state changes nothing. -/
theorem arm_rejected_without_start_gate_witness :
    armClick [⟨"1002", GateRole.FINISH, "B"⟩] none initHostState =
      (initHostState, []) :=
  (arm_rejected_without_start_gate [⟨"1002", GateRole.FINISH, "B"⟩] none
    initHostState).1 (by decide)

/-! ## C3 — trigger ordering guard -/

/-- C3.  Trigger ordering guard: a received TRIGGER whose role does
not match the expected next role for the current status — i.e. any
combination other than (ARMED, START), (RUNNING, SPLIT), (RUNNING,
FINISH) — leaves the race state entirely unchanged and produces no
sends; `handleTrigger` is total, so no error is raised. -/
theorem mismatched_trigger_ignored (peers : List ConnectedPeer)
    (s : HostState) (now : Int) (role : GateRole) (ts : Option Int)
    (h : ¬ ((s.raceState = RaceState.ARMED ∧ role = GateRole.START) ∨
            (s.raceState = RaceState.RUNNING ∧ role = GateRole.SPLIT) ∨
            (s.raceState = RaceState.RUNNING ∧ role = GateRole.FINISH))) :
    handleTrigger peers s now role ts = (s, []) := by
  have h1 : ¬ (s.raceState = RaceState.ARMED ∧ role = GateRole.START) :=
    fun hc => h (Or.inl hc)
  have h2 : ¬ (s.raceState = RaceState.RUNNING ∧ role = GateRole.SPLIT) :=
    fun hc => h (Or.inr (Or.inl hc))
  have h3 : ¬ (s.raceState = RaceState.RUNNING ∧ role = GateRole.FINISH) :=
    fun hc => h (Or.inr (Or.inr hc))
  unfold handleTrigger
  rw [if_neg h1, if_neg h2, if_neg h3]

/-- Witness for C3: a TRIGGER(FINISH) received while the host is ARMED
is ignored — no transition, `startTime` untouched, nothing sent. -/
theorem mismatched_trigger_ignored_witness :
    handleTrigger [] { initHostState with raceState := RaceState.ARMED }
      50 GateRole.FINISH (some 4000) =
      ({ initHostState with raceState := RaceState.ARMED }, []) :=
  mismatched_trigger_ignored [] { initHostState with raceState := RaceState.ARMED }
    50 GateRole.FINISH (some 4000) (by decide)

/-! ## C4 — timestamp noninterference -/

/-- C4.  Timestamp noninterference: two trigger sequences that agree
on the host's receipt clock and the trigger roles, and differ only in
the timestamp values carried in the TRIGGER payloads, drive the race
state machine to identical results — the same final state (hence the
same status at every prefix, by instantiating with prefixes) and the
same elapsed time and sends.  The source binds the payload timestamp
as `_remoteTimestamp` and never reads it. -/
theorem race_outcome_ignores_payload_timestamps
    (peers : List ConnectedPeer) (s : HostState)
    (evs1 evs2 : List (Int × GateRole × Option Int))
    (h : evs1.map (fun e => (e.1, e.2.1)) = evs2.map (fun e => (e.1, e.2.1))) :
    runTriggers peers s evs1 = runTriggers peers s evs2 := by
  induction evs1 generalizing evs2 s with
  | nil =>
      have : evs2 = [] := by
        cases evs2 with
        | nil => rfl
        | cons b t => simp at h
      subst this; rfl
  | cons a t ih =>
      cases evs2 with
      | nil => simp at h
      | cons b t2 =>
          obtain ⟨na, ra, ta⟩ := a
          obtain ⟨nb, rb, tb⟩ := b
          simp only [List.map_cons, List.cons.injEq, Prod.mk.injEq] at h
          obtain ⟨⟨hnow, hrole⟩, htail⟩ := h
          subst hnow; subst hrole
          simp only [runTriggers]
          rw [handleTrigger_ts_irrel peers s na ra ta tb]
          rw [ih _ _ htail]

/-- Witness for C4: one START then one FINISH trigger, with the gate
timestamps 1000/5000 in one run and 111/222 in the other, produce the
identical host outcome. -/
theorem race_outcome_ignores_payload_timestamps_witness :
    runTriggers [] { initHostState with raceState := RaceState.ARMED }
      [(10, GateRole.START, some 1000), (4010, GateRole.FINISH, some 5000)] =
    runTriggers [] { initHostState with raceState := RaceState.ARMED }
      [(10, GateRole.START, some 111), (4010, GateRole.FINISH, some 222)] :=
  race_outcome_ignores_payload_timestamps [] _ _ _ (by decide)

/-! ## C5 — finish transition -/

/-- C5.  Finish transition: a TRIGGER(FINISH) received while the race
is RUNNING stops the periodic sampler, sets the elapsed time to the
host's current clock minus the recorded start timestamp, moves the
status to FINISHED (not back to IDLE), and broadcasts
STATE_CHANGE("LOBBY") to every registered gate. -/
theorem finish_trigger_transition (peers : List ConnectedPeer)
    (s : HostState) (now : Int) (ts : Option Int)
    (h : s.raceState = RaceState.RUNNING) :
    handleTrigger peers s now GateRole.FINISH ts =
      ({ s with
          raceState := RaceState.FINISHED,
          timerOn := false,
          elapsedTime := now - s.startTime },
       peers.map fun p => (p.id, Message.STATE_CHANGE "LOBBY" none)) := by
  unfold handleTrigger
  rw [if_neg (by simp [h]), if_neg (by simp), if_pos ⟨h, rfl⟩]
  rfl

/-- Witness for C5: with two registered gates and a race running since
host time 2, a FINISH trigger at host time 9 yields FINISHED, a
stopped sampler, elapsed 7, and a LOBBY state change to both gates. -/
theorem finish_trigger_transition_witness :
    handleTrigger
      [⟨"1001", GateRole.START, "A"⟩, ⟨"1002", GateRole.FINISH, "B"⟩]
      { initHostState with
          raceState := RaceState.RUNNING, startTime := 2, timerOn := true }
      9 GateRole.FINISH (some 5000) =
      ({ initHostState with
          raceState := RaceState.FINISHED, startTime := 2,
          elapsedTime := 7, timerOn := false },
       [("1001", Message.STATE_CHANGE "LOBBY" none),
        ("1002", Message.STATE_CHANGE "LOBBY" none)]) := by
  rw [finish_trigger_transition _ _ _ _ rfl]; decide

/-! ## C9 — unconnected send is a silent no-op -/

/-- C9.  Unconnected-send no-op: with no host connection established,
`sendTrigger` (and the generic send toward the host) sends nothing,
raises no error, and leaves the client state unchanged. -/
theorem unconnected_send_noop (c : ClientState) (role : GateRole)
    (ts : Int) (raceId : Option String) (m : Message)
    (h : c.hostConnection = none) :
    sendTrigger c role ts raceId = (c, []) ∧
    sendToHostInternal c m = (c, []) := by
  constructor <;> simp [sendTrigger, sendToHostInternal, h]

/-- Witness for C9: a trigger send on an unconnected client does
nothing. -/
theorem unconnected_send_noop_witness :
    sendTrigger ⟨none⟩ GateRole.START 1000 none = (⟨none⟩, []) ∧
    sendToHostInternal ⟨none⟩ Message.RESET = (⟨none⟩, []) :=
  unconnected_send_noop ⟨none⟩ GateRole.START 1000 none Message.RESET rfl

/-! ## C10 — SPLIT triggers preserve the running race -/

/-- C10.  A TRIGGER(SPLIT) received while the race is RUNNING leaves
the status RUNNING, the sampler live, and `startTime`, `elapsedTime`
and `preciseTime` untouched (the result record updates only
`splitTimes`), sends nothing, and — for a fresh key — appends exactly
one split entry holding the host's current time minus the recorded
start timestamp. -/
theorem split_trigger_preserves_run (peers : List ConnectedPeer)
    (s : HostState) (now : Int) (ts : Option Int)
    (h1 : s.raceState = RaceState.RUNNING)
    (h2 : (s.splitTimes.any fun e => decide (e.1 = now)) = false) :
    handleTrigger peers s now GateRole.SPLIT ts =
      ({ s with splitTimes := s.splitTimes ++ [(now, now - s.startTime)] },
       []) := by
  unfold handleTrigger
  rw [if_neg (by simp [h1]), if_pos ⟨h1, rfl⟩]
  unfold recordSplit
  rw [if_neg (by simp [h2])]

/-- Witness for C10: a SPLIT trigger at host time 30 during a race
started at host time 12 appends the single split entry (30, 18) and
changes nothing else. -/
theorem split_trigger_preserves_run_witness :
    handleTrigger []
      { initHostState with
          raceState := RaceState.RUNNING, startTime := 12, timerOn := true }
      30 GateRole.SPLIT (some 999) =
      ({ initHostState with
          raceState := RaceState.RUNNING, startTime := 12, timerOn := true,
          splitTimes := [(30, 18)] },
       []) := by
  rw [split_trigger_preserves_run _ _ _ _ rfl (by decide)]; decide

/-! ## C7 — sampler cleanup -/

theorem hostStep_timer (s : HostState)
    (ev : List ConnectedPeer × Int × HostEvent)
    (h : s.timerOn = true → s.raceState = RaceState.RUNNING) :
    (hostStep s ev).1.timerOn = true →
      (hostStep s ev).1.raceState = RaceState.RUNNING := by
  obtain ⟨peers, now, e⟩ := ev
  cases e with
  | armClick raceId =>
      simp only [hostStep, armClick, armSystem]
      split
      · intro ht; exact absurd (h ht) (by rename_i hc; rcases hc.1 with h1 | h1 <;> simp [h1])
      · exact h
  | trigger role ts =>
      simp only [hostStep, handleTrigger]
      split
      · intro _; rfl
      · split
        · exact h
        · split
          · intro ht; exact absurd ht (by simp [stopTimer])
          · exact h
  | cancel =>
      intro ht
      exact absurd ht (by simp [hostStep, cancelRace, stopTimer])

theorem hostRun_timer (evs : List (List ConnectedPeer × Int × HostEvent)) :
    ∀ s : HostState, (s.timerOn = true → s.raceState = RaceState.RUNNING) →
      (hostRun s evs).1.timerOn = true →
        (hostRun s evs).1.raceState = RaceState.RUNNING := by
  induction evs with
  | nil => intro s h; exact h
  | cons ev rest ih =>
      intro s h
      simp only [hostRun]
      exact ih (hostStep s ev).1 (hostStep_timer s ev h)

/-- C7.  Sampler-cleanup invariant: starting from the initial host
state, after any sequence of host events (arm clicks, received
triggers, cancels) a live periodic sampler implies status RUNNING — in
no other state does a live sampler exist; moreover the two exit paths
out of RUNNING/ARMED both clear it: the FINISH trigger taking RUNNING
to FINISHED, and `cancelRace` (which always stops the timer). -/
theorem sampler_only_when_running
    (evs : List (List ConnectedPeer × Int × HostEvent))
    (peers : List ConnectedPeer) (s : HostState) (now : Int)
    (ts : Option Int) :
    ((hostRun initHostState evs).1.timerOn = true →
      (hostRun initHostState evs).1.raceState = RaceState.RUNNING) ∧
    (s.raceState = RaceState.RUNNING →
      (handleTrigger peers s now GateRole.FINISH ts).1.timerOn = false) ∧
    (cancelRace peers s).1.timerOn = false := by
  refine ⟨hostRun_timer evs initHostState (by intro h; simp [initHostState] at h),
          fun h => ?_, by simp [cancelRace, stopTimer]⟩
  simp [handleTrigger, h, stopTimer]

/-- Witness for C7: after arming (one START gate registered) and a
START trigger, the sampler is live and the status is indeed RUNNING;
cancelling from that state clears the sampler. -/
theorem sampler_only_when_running_witness :
    (hostRun initHostState
      [([⟨"1001", GateRole.START, "A"⟩], 5, HostEvent.armClick none),
       ([⟨"1001", GateRole.START, "A"⟩], 7, HostEvent.trigger GateRole.START none)]).1.raceState
      = RaceState.RUNNING ∧
    (handleTrigger []
      { initHostState with raceState := RaceState.RUNNING, timerOn := true }
      9 GateRole.FINISH none).1.timerOn = false :=
  ⟨(sampler_only_when_running
      [([⟨"1001", GateRole.START, "A"⟩], 5, HostEvent.armClick none),
       ([⟨"1001", GateRole.START, "A"⟩], 7, HostEvent.trigger GateRole.START none)]
      [] initHostState 0 none).1 (by decide),
   (sampler_only_when_running []
      [] { initHostState with raceState := RaceState.RUNNING, timerOn := true }
      9 none).2.1 rfl⟩

/-! ## C8 — idempotent reset -/

/-- C8.  Idempotent reset: `broadcastReset` sends one RESET to every
registered peer and empties the host's buffered trigger-event list;
a second immediate `broadcastReset` leaves the host session state
exactly as after the first, and on the gate side a second RESET
received right after a first one changes nothing and sends nothing —
every gate ends in LOBBY with its motion detector disarmed. -/
theorem broadcast_reset_idempotent (st : HostSession) (g : GateState)
    (now now2 : Int) :
    (broadcastReset st).1.triggerEvents = [] ∧
    (broadcastReset st).2 = st.peers.map (fun p => (p.id, Message.RESET)) ∧
    (broadcastReset (broadcastReset st).1).1 = (broadcastReset st).1 ∧
    gateStep (gateStep g now GateEvent.reset).1 now2 GateEvent.reset =
      ((gateStep g now GateEvent.reset).1, []) ∧
    (gateStep g now GateEvent.reset).1.status = GateStatus.LOBBY ∧
    (gateStep g now GateEvent.reset).1.motion.isArmed = false := by
  refine ⟨rfl, rfl, rfl, ?_, rfl, rfl⟩
  simp [gateStep, motionArm]

/-! ## C6 — one-shot trigger -/

theorem gateStep_silent (g : GateState) (now : Int) (e : GateEvent)
    (h : g.motion.isArmed = false)
    (he : e ≠ GateEvent.stateChange "ARMED") :
    (gateStep g now e).2 = [] ∧ (gateStep g now e).1.motion.isArmed = false := by
  cases e with
  | roleAssign r => exact ⟨rfl, h⟩
  | stateChange st =>
      by_cases hst : st = "ARMED"
      · exact absurd (by rw [hst]) he
      · by_cases hl : st = "LOBBY"
        · subst hl; simp [gateStep, motionArm]
        · simp [gateStep, hst, hl, h]
  | reset => simp [gateStep, motionArm]
  | frame d =>
      have hcond : ¬ (g.motion.isArmed = true ∧ d > sensitivity
          ∧ g.status = GateStatus.ARMED) := by simp [h]
      simp [gateStep, if_neg hcond, detectStep, h]

theorem gateRun_silent (evs : List (Int × GateEvent)) :
    ∀ g : GateState, g.motion.isArmed = false →
      (∀ p ∈ evs, p.2 ≠ GateEvent.stateChange "ARMED") →
      (gateRun g evs).2 = [] ∧ (gateRun g evs).1.motion.isArmed = false := by
  induction evs with
  | nil => intro g h _; exact ⟨rfl, h⟩
  | cons p rest ih =>
      intro g h hno
      obtain ⟨now, e⟩ := p
      have hstep := gateStep_silent g now e h (hno (now, e) (List.mem_cons_self _ _))
      have hrest := ih (gateStep g now e).1 hstep.2
        (fun q hq => hno q (List.mem_cons_of_mem _ hq))
      simp only [gateRun]
      exact ⟨by rw [hstep.1, hrest.1]; simp, hrest.2⟩

/-- C6.  One-shot trigger: when the motion detector fires (it is
armed and the frame's diff count exceeds the sensitivity) while the
gate status is ARMED, the gate transitions to TRIGGERED, sends exactly
one TRIGGER message carrying its role and its local clock, and the
detector's armed flag is cleared at that same instant; consequently no
later event — further motion frames included — makes the gate send
anything until a new STATE_CHANGE("ARMED") arrives. -/
theorem one_shot_trigger (g : GateState) (now : Int) (d : Nat)
    (evs : List (Int × GateEvent))
    (hst : g.status = GateStatus.ARMED)
    (harm : g.motion.isArmed = true)
    (hd : d > sensitivity)
    (hnoarm : ∀ p ∈ evs, p.2 ≠ GateEvent.stateChange "ARMED") :
    gateStep g now (GateEvent.frame d) =
      ({ g with
          status := GateStatus.TRIGGERED,
          motion := { isArmed := false, motionDetected := true,
                      currentDiff := d } },
       [Message.TRIGGER g.role now none]) ∧
    (gateRun (gateStep g now (GateEvent.frame d)).1 evs).2 = [] := by
  have hfire : gateStep g now (GateEvent.frame d) =
      ({ g with
          status := GateStatus.TRIGGERED,
          motion := { isArmed := false, motionDetected := true,
                      currentDiff := d } },
       [Message.TRIGGER g.role now none]) := by
    simp [gateStep, detectStep, harm, hd, hst]
  refine ⟨hfire, ?_⟩
  have : (gateStep g now (GateEvent.frame d)).1.motion.isArmed = false := by
    rw [hfire]
  exact (gateRun_silent evs _ this hnoarm).1

/-- Witness for C6: an armed START gate sees a frame with 25 changed
pixels at local time 42, sends one TRIGGER, and stays silent through
further motion frames, a reset and a LOBBY state change. -/
theorem one_shot_trigger_witness :
    gateStep
      { status := GateStatus.ARMED, role := GateRole.START,
        motion := { isArmed := true, motionDetected := false, currentDiff := 3 } }
      42 (GateEvent.frame 25) =
      ({ status := GateStatus.TRIGGERED, role := GateRole.START,
         motion := { isArmed := false, motionDetected := true, currentDiff := 25 } },
       [Message.TRIGGER GateRole.START 42 none]) ∧
    (gateRun
      (gateStep
        { status := GateStatus.ARMED, role := GateRole.START,
          motion := { isArmed := true, motionDetected := false, currentDiff := 3 } }
        42 (GateEvent.frame 25)).1
      [(43, GateEvent.frame 30), (44, GateEvent.reset),
       (45, GateEvent.stateChange "LOBBY"), (46, GateEvent.frame 99)]).2 = [] :=
  one_shot_trigger _ 42 25 _ rfl rfl (by decide) (by decide)

/-! ## C1 — role exclusivity -/

theorem clearIdsFn_nil (p : ConnectedPeer) : clearIdsFn [] p = p := by
  simp [clearIdsFn]

theorem clearIdsFn_cons (pid : String) (rest : List String)
    (p : ConnectedPeer) :
    clearIdsFn rest (assignFn pid GateRole.NONE p) =
      clearIdsFn (pid :: rest) p := by
  unfold clearIdsFn assignFn
  by_cases h1 : p.id = pid
  · by_cases h2 : p.id ∈ rest <;> simp [h1, h2]
  · by_cases h2 : p.id ∈ rest <;> simp [h1, h2]

theorem comp_id (ids : List String) (pid : String) (r : GateRole)
    (p : ConnectedPeer) :
    (assignFn pid r (clearIdsFn ids p)).id = p.id := by
  rw [assignFn_id, clearIdsFn_id]

/-- Role of a registry entry after the clears and the final
assignment of `setRole`. -/
theorem comp_role (ids : List String) (pid : String) (r : GateRole)
    (p : ConnectedPeer) :
    (assignFn pid r (clearIdsFn ids p)).role =
      if p.id = pid then r
      else if p.id ∈ ids then GateRole.NONE
      else p.role := by
  by_cases h2 : p.id = pid
  · subst h2
    unfold clearIdsFn assignFn
    by_cases h1 : p.id ∈ ids <;> simp [h1]
  · unfold clearIdsFn assignFn
    by_cases h1 : p.id ∈ ids <;> simp [h1, h2]

theorem clearList_fst (ids : List String) :
    ∀ ps : List ConnectedPeer,
      (clearList ps ids).1 = ps.map (clearIdsFn ids) := by
  induction ids with
  | nil =>
      intro ps
      have hmap : ps.map (clearIdsFn []) = ps.map id :=
        List.map_congr_left fun p _ => clearIdsFn_nil p
      simp [clearList, hmap]
  | cons pid rest ih =>
      intro ps
      calc (clearList ps (pid :: rest)).1
          = (clearList (ps.map (assignFn pid GateRole.NONE)) rest).1 := rfl
        _ = (ps.map (assignFn pid GateRole.NONE)).map (clearIdsFn rest) :=
            ih _
        _ = ps.map (clearIdsFn rest ∘ assignFn pid GateRole.NONE) :=
            List.map_map _ _ _
        _ = ps.map (clearIdsFn (pid :: rest)) :=
            List.map_congr_left fun p _ => clearIdsFn_cons pid rest p

theorem setRole_fst (ps : List ConnectedPeer) (pid : String) (r : GateRole) :
    (setRole ps pid r).1 =
      ps.map fun p => assignFn pid r (clearIdsFn (clearIds ps pid r) p) := by
  show (assignRole (clearList ps (clearIds ps pid r)).1 pid r).1 = _
  rw [assignRole_fst, clearList_fst, List.map_map]
  rfl

theorem setRole_ids (ps : List ConnectedPeer) (pid : String) (r : GateRole) :
    (setRole ps pid r).1.map ConnectedPeer.id = ps.map ConnectedPeer.id := by
  rw [setRole_fst, List.map_map]
  exact List.map_congr_left fun p _ => comp_id _ pid r p

theorem mem_clearIds (ps : List ConnectedPeer) (pid : String) (r : GateRole)
    (q : ConnectedPeer) (hq : q ∈ ps) (hr : q.role = r) (hid : q.id ≠ pid) :
    q.id ∈ clearIds ps pid r := by
  unfold clearIds
  exact List.mem_map_of_mem _ (List.mem_filter.mpr ⟨hq, by simp [hr, hid]⟩)

theorem countP_id_le_one (pid : String) :
    ∀ ps : List ConnectedPeer, (ps.map ConnectedPeer.id).Nodup →
      ps.countP (fun p => decide (p.id = pid)) ≤ 1 := by
  intro ps
  induction ps with
  | nil => intro _; simp
  | cons p rest ih =>
      intro hnd
      rw [List.map_cons, List.nodup_cons] at hnd
      rw [List.countP_cons]
      by_cases h : p.id = pid
      · have hzero : rest.countP (fun q => decide (q.id = pid)) = 0 := by
          rw [List.countP_eq_zero]
          intro q hq hqid
          rw [decide_eq_true_eq] at hqid
          exact hnd.1 (h ▸ hqid ▸ List.mem_map_of_mem ConnectedPeer.id hq)
        simp [hzero, h]
      · simpa [h] using ih hnd.2

theorem setRole_count_target (ps : List ConnectedPeer) (pid : String)
    (r : GateRole) (hr : r ≠ GateRole.NONE)
    (hnd : (ps.map ConnectedPeer.id).Nodup) :
    countRole (setRole ps pid r).1 r ≤ 1 := by
  rw [setRole_fst]
  unfold countRole
  rw [List.countP_map]
  refine le_trans (List.countP_mono_left fun p hp hrole => ?_)
    (countP_id_le_one pid ps hnd)
  rw [Function.comp_apply, decide_eq_true_eq, comp_role] at hrole
  rw [decide_eq_true_eq]
  by_contra hne
  rw [if_neg hne] at hrole
  by_cases hmem : p.id ∈ clearIds ps pid r
  · rw [if_pos hmem] at hrole
    exact hr hrole.symm
  · rw [if_neg hmem] at hrole
    exact hmem (mem_clearIds ps pid r p hp hrole hne)

theorem setRole_count_other (ps : List ConnectedPeer) (pid : String)
    (r rp : GateRole) (h1 : rp ≠ r) (h2 : rp ≠ GateRole.NONE) :
    countRole (setRole ps pid r).1 rp ≤ countRole ps rp := by
  rw [setRole_fst]
  unfold countRole
  rw [List.countP_map]
  refine List.countP_mono_left fun p hp hrole => ?_
  rw [Function.comp_apply, decide_eq_true_eq, comp_role] at hrole
  rw [decide_eq_true_eq]
  by_cases hid : p.id = pid
  · rw [if_pos hid] at hrole
    exact absurd hrole.symm h1
  · rw [if_neg hid] at hrole
    by_cases hmem : p.id ∈ clearIds ps pid r
    · rw [if_pos hmem] at hrole
      exact absurd hrole.symm h2
    · rw [if_neg hmem] at hrole
      exact hrole

theorem setRole_invariant (ps : List ConnectedPeer) (pid : String)
    (r : GateRole) (hnd : (ps.map ConnectedPeer.id).Nodup)
    (hinv : roleInvariant ps) : roleInvariant (setRole ps pid r).1 := by
  constructor
  · by_cases h : r = GateRole.START
    · subst h
      exact setRole_count_target ps pid _ (by decide) hnd
    · exact le_trans
        (setRole_count_other ps pid r GateRole.START (fun hc => h hc.symm)
          (by decide)) hinv.1
  · by_cases h : r = GateRole.FINISH
    · subst h
      exact setRole_count_target ps pid _ (by decide) hnd
    · exact le_trans
        (setRole_count_other ps pid r GateRole.FINISH (fun hc => h hc.symm)
          (by decide)) hinv.2

theorem applyOps_invariant (ops : List (String × GateRole)) :
    ∀ ps : List ConnectedPeer, (ps.map ConnectedPeer.id).Nodup →
      roleInvariant ps → roleInvariant (applyOps ps ops) := by
  induction ops with
  | nil => intro ps _ hinv; exact hinv
  | cons op rest ih =>
      intro ps hnd hinv
      obtain ⟨pid, r⟩ := op
      exact ih (setRole ps pid r).1
        (by rw [setRole_ids]; exact hnd)
        (setRole_invariant ps pid r hnd hinv)

theorem assignRole_ids (ps : List ConnectedPeer) (pid : String)
    (r : GateRole) :
    (assignRole ps pid r).1.map ConnectedPeer.id = ps.map ConnectedPeer.id := by
  rw [assignRole_fst, List.map_map]
  exact List.map_congr_left fun p _ => assignFn_id pid r p

theorem assignRole_snd_of_mem (ps : List ConnectedPeer) (pid : String)
    (r : GateRole) (h : pid ∈ ps.map ConnectedPeer.id) :
    (assignRole ps pid r).2 = [(pid, Message.ROLE_ASSIGN r)] := by
  obtain ⟨p, hp, hpid⟩ := List.mem_map.mp h
  have hmem : assignFn pid r p ∈ ps.map (assignFn pid r) :=
    List.mem_map_of_mem _ hp
  have hsome :
      ((ps.map (assignFn pid r)).find? fun q => decide (q.id = pid)).isSome := by
    rw [List.find?_isSome]
    exact ⟨_, hmem, by simp [assignFn_id, hpid]⟩
  obtain ⟨a, ha⟩ := Option.isSome_iff_exists.mp hsome
  have haid : a.id = pid := by
    have := List.find?_some ha
    simpa using this
  show (match (ps.map (assignFn pid r)).find? (fun q => decide (q.id = pid)) with
    | some p => [(p.id, Message.ROLE_ASSIGN r)]
    | none => []) = _
  rw [ha]
  simp [haid]

theorem clearList_snd (ids : List String) :
    ∀ ps : List ConnectedPeer, (∀ i ∈ ids, i ∈ ps.map ConnectedPeer.id) →
      (clearList ps ids).2 =
        ids.map fun i => (i, Message.ROLE_ASSIGN GateRole.NONE) := by
  induction ids with
  | nil => intro ps _; rfl
  | cons pid rest ih =>
      intro ps hmem
      have h1 : pid ∈ ps.map ConnectedPeer.id :=
        hmem pid (List.mem_cons_self _ _)
      show (assignRole ps pid GateRole.NONE).2
          ++ (clearList (assignRole ps pid GateRole.NONE).1 rest).2 = _
      rw [assignRole_snd_of_mem ps pid GateRole.NONE h1]
      rw [ih _ fun i hi => by
        rw [assignRole_ids]; exact hmem i (List.mem_cons_of_mem _ hi)]
      rfl

theorem setRole_snd (ps : List ConnectedPeer) (pid : String) (r : GateRole)
    (htgt : pid ∈ ps.map ConnectedPeer.id) :
    (setRole ps pid r).2 =
      ((clearIds ps pid r).map fun i => (i, Message.ROLE_ASSIGN GateRole.NONE))
        ++ [(pid, Message.ROLE_ASSIGN r)] := by
  show (clearList ps (clearIds ps pid r)).2
      ++ (assignRole (clearList ps (clearIds ps pid r)).1 pid r).2 = _
  have hsub : ∀ i ∈ clearIds ps pid r, i ∈ ps.map ConnectedPeer.id := by
    intro i hi
    unfold clearIds at hi
    obtain ⟨x, hx, rfl⟩ := List.mem_map.mp hi
    exact List.mem_map_of_mem _ (List.mem_filter.mp hx).1
  have hids : (clearList ps (clearIds ps pid r)).1.map ConnectedPeer.id
      = ps.map ConnectedPeer.id := by
    rw [clearList_fst, List.map_map]
    exact List.map_congr_left fun p _ => clearIdsFn_id _ p
  rw [clearList_snd _ _ hsub,
    assignRole_snd_of_mem _ _ _ (by rw [hids]; exact htgt)]

theorem setRole_mem_roles (ps : List ConnectedPeer) (pid : String)
    (r : GateRole) (q : ConnectedPeer) (hq : q ∈ ps) (hqr : q.role = r)
    (hqid : q.id ≠ pid) :
    ∀ p ∈ (setRole ps pid r).1,
      (p.id = pid → p.role = r) ∧ (p.id = q.id → p.role = GateRole.NONE) := by
  intro p hp
  rw [setRole_fst] at hp
  obtain ⟨p0, hp0, rfl⟩ := List.mem_map.mp hp
  constructor
  · intro hid
    rw [comp_id] at hid
    rw [comp_role, if_pos hid]
  · intro hid
    rw [comp_id] at hid
    have hne : p0.id ≠ pid := by rw [hid]; exact hqid
    have hmem : p0.id ∈ clearIds ps pid r := by
      rw [hid]; exact mem_clearIds ps pid r q hq hqr hqid
    rw [comp_role, if_neg hne, if_pos hmem]

/-- C1.  Role exclusivity: on a registry with pairwise-distinct peer
ids satisfying the at-most-one-holder invariant for START and FINISH
(as every registry built from JOINs does — new peers enter with role
NONE), any sequence of host-issued role assignments (`setRole`, which
drives every role button in HostView) preserves the invariant; and
when the role being assigned is currently held by another peer `q`,
the operation clears `q` to NONE — a ROLE_ASSIGN(NONE) send to `q`
strictly precedes the ROLE_ASSIGN(role) send to the target — and in
the resulting registry the target holds the role while `q` holds
NONE.  (The registry-level `assignRole` alone performs no clearing;
the invariant enforcement lives in HostView's `setRole` wrapper.) -/
theorem role_exclusivity (ps : List ConnectedPeer)
    (ops : List (String × GateRole)) (pid : String) (r : GateRole)
    (q : ConnectedPeer)
    (hnd : (ps.map ConnectedPeer.id).Nodup)
    (hinv : roleInvariant ps)
    (hq : q ∈ ps) (hqr : q.role = r) (hqid : q.id ≠ pid)
    (htgt : pid ∈ ps.map ConnectedPeer.id) :
    roleInvariant (applyOps ps ops) ∧
    (∃ l₁ l₂, (setRole ps pid r).2 =
        l₁ ++ (q.id, Message.ROLE_ASSIGN GateRole.NONE) :: l₂
           ++ [(pid, Message.ROLE_ASSIGN r)]) ∧
    (∀ p ∈ (setRole ps pid r).1,
      (p.id = pid → p.role = r) ∧ (p.id = q.id → p.role = GateRole.NONE)) := by
  refine ⟨applyOps_invariant ops ps hnd hinv, ?_,
    setRole_mem_roles ps pid r q hq hqr hqid⟩
  have hqmem : q.id ∈ clearIds ps pid r := mem_clearIds ps pid r q hq hqr hqid
  obtain ⟨s1, s2, hsplit⟩ := List.append_of_mem hqmem
  refine ⟨s1.map fun i => (i, Message.ROLE_ASSIGN GateRole.NONE),
          s2.map fun i => (i, Message.ROLE_ASSIGN GateRole.NONE), ?_⟩
  rw [setRole_snd ps pid r htgt, hsplit]
  simp

/-- Witness for C1: peer 1001 holds START; assigning START to peer
1002 clears 1001 first (ROLE_ASSIGN(NONE) to 1001 sent before
ROLE_ASSIGN(START) to 1002), and the invariant survives that
assignment followed by giving 1001 FINISH. -/
theorem role_exclusivity_witness :
    roleInvariant (applyOps
      [⟨"1001", GateRole.START, "A"⟩, ⟨"1002", GateRole.NONE, "B"⟩]
      [("1002", GateRole.START), ("1001", GateRole.FINISH)]) ∧
    (∃ l₁ l₂, (setRole
        [⟨"1001", GateRole.START, "A"⟩, ⟨"1002", GateRole.NONE, "B"⟩]
        "1002" GateRole.START).2 =
        l₁ ++ ("1001", Message.ROLE_ASSIGN GateRole.NONE) :: l₂
           ++ [("1002", Message.ROLE_ASSIGN GateRole.START)]) ∧
    (∀ p ∈ (setRole
        [⟨"1001", GateRole.START, "A"⟩, ⟨"1002", GateRole.NONE, "B"⟩]
        "1002" GateRole.START).1,
      (p.id = "1002" → p.role = GateRole.START) ∧
      (p.id = "1001" → p.role = GateRole.NONE)) :=
  role_exclusivity
    [⟨"1001", GateRole.START, "A"⟩, ⟨"1002", GateRole.NONE, "B"⟩]
    [("1002", GateRole.START), ("1001", GateRole.FINISH)]
    "1002" GateRole.START ⟨"1001", GateRole.START, "A"⟩
    (by decide) (by decide) (by decide) (by decide) (by decide) (by decide)

end SprintSync
